import Mathlib

/-!
Verification development for the CellMindAI prompt-chain engine
(files CellMindAI-Client.js and CellMindAILib.js).

Spreadsheet cell values are modelled as strings; tabular data is a list of
rows of cells.  The completion API is modelled as an oracle mapping the call
index and the prompt text to either a response text or an error message
(the thrown error).  All definitions mirror the JavaScript source; the
comments name the source function and lines each definition embeds.
-/

abbrev Cell := String

abbrev TabularData := List (List Cell)

/-- Character-list core of the JavaScript method String.prototype.includes:
true iff pat occurs as a contiguous sublist of s. -/
def containsSubAux (pat : List Char) : List Char → Bool
  | [] => pat.isEmpty
  | c :: t => pat.isPrefixOf (c :: t) || containsSubAux pat t

/-- JavaScript s.includes(pat). -/
def strIncludes (s pat : String) : Bool :=
  containsSubAux pat.data s.data

/-- Drop leading and trailing whitespace from a character list. -/
def trimChars (l : List Char) : List Char :=
  (((l.dropWhile Char.isWhitespace).reverse).dropWhile Char.isWhitespace).reverse

/-- JavaScript s.trim(). -/
def jsTrim (s : String) : String :=
  String.mk (trimChars s.data)

/-- JavaScript s.toLowerCase(). -/
def jsToLower (s : String) : String :=
  String.mk (s.data.map Char.toLower)

/-- The normalization applied to header and include cells in the client:
String(h).toLowerCase().trim()  (CellMindAI-Client.js lines 459 and 550). -/
def normalizeCell (s : String) : String :=
  jsTrim (jsToLower s)

/-- JavaScript truthiness of a string value: every string except the empty
string is truthy. -/
def jsTruthy (s : String) : Bool :=
  !(s == "")

/-- JavaScript Array.prototype.join for a row of (string) cells with a given
one-character separator, as used with the tab separator in the table
formatting loops. -/
def rowJoin : List Cell → String
  | [] => ""
  | [c] => c
  | c :: c2 :: rest => c ++ "\t" ++ rowJoin (c2 :: rest)

/-- Split a character list at every occurrence of sep, mirroring the
JavaScript method String.prototype.split with a one-character separator. -/
def splitFields (sep : Char) : List Char → List (List Char)
  | [] => [[]]
  | c :: t =>
    if c == sep then [] :: splitFields sep t
    else
      match splitFields sep t with
      | [] => [[c]]
      | f :: rest => (c :: f) :: rest

/-- JavaScript ref.split for the scope separator, as in
rangeReference.split in CellMindAI-Client.js line 505. -/
def jsSplitBang (s : String) : List String :=
  (splitFields '!' s.data).map String.mk

/-- findColumnIndex loop body (CellMindAI-Client.js lines 744-753): scan
headers left to right, at each header scan the keywords, return the index of
the first header that includes some keyword. -/
def findColumnIndexAux (keywords : List String) : Nat → List String → Int
  | _, [] => -1
  | i, h :: rest =>
    if keywords.any (fun k => strIncludes h k) then (i : Int)
    else findColumnIndexAux keywords (i + 1) rest

/-- findColumnIndex (CellMindAI-Client.js lines 744-753). -/
def findColumnIndex (headers keywords : List String) : Int :=
  findColumnIndexAux keywords 0 headers

/-- Column discovery as invoked at CellMindAI-Client.js line 459 and
lines 463, 477, 481: the raw header row is first normalized cell-wise with
String(h).toLowerCase().trim() and then searched with findColumnIndex. -/
def columnDiscovery (headers keywords : List String) : Int :=
  findColumnIndex (headers.map normalizeCell) keywords

/-- Index of the first element satisfying P, stated the way the spec words
column discovery; used only to compare columnDiscovery against the spec. -/
def specFirstMatchIdx (P : String → Bool) : List String → Option Nat
  | [] => none
  | h :: t => if P h then some 0 else (specFirstMatchIdx P t).map (· + 1)

/-- External spreadsheet collaborators used by the data-reference block of
executePromptChainFromCurrentSheet (CellMindAI-Client.js lines 500-528):
getSheet models ss.getSheetByName composed with getRange(...).getValues()
on the found sheet (none when the sheet does not exist), getRangeByName
models ss.getRangeByName(...).getValues() (error for a throw, ok none for a
null range), currentRange models sheet.getRange(...).getValues() on the
active sheet. -/
structure SheetEnv where
  getSheet : String → Option (String → Except String TabularData)
  getRangeByName : String → Except String (Option TabularData)
  currentRange : String → Except String TabularData

/-- Data-reference resolution, CellMindAI-Client.js lines 503-528.  A
reference containing the scope separator is split; a missing sheet throws
the message built at line 509; the address is then resolved inside that
sheet.  A reference without the separator tries ss.getRangeByName first:
a non-null named range wins, a null result or a throw falls back to
sheet.getRange on the current sheet. -/
def resolveReference (env : SheetEnv) (ref : String) : Except String TabularData :=
  if strIncludes ref "!" then
    let sheetName := ((jsSplitBang ref).get? 0).getD ""
    let rangeAddress := ((jsSplitBang ref).get? 1).getD ""
    match env.getSheet sheetName with
    | none => .error ("Sheet \"" ++ sheetName ++ "\" not found")
    | some sheetRange => sheetRange rangeAddress
  else
    match env.getRangeByName ref with
    | .ok (some d) => .ok d
    | .ok none => env.currentRange ref
    | .error _ => env.currentRange ref

/-- One step of a prompt chain as pushed by both chain builders:
{ prompt, data, includeLastResult, options: {} } (CellMindAI-Client.js
lines 558-563, CellMindAILib.js lines 496-501).  The options object is
always empty there and is omitted. -/
structure ChainStep where
  prompt : String
  data : TabularData
  includeLastResult : Bool
deriving DecidableEq

/-- The table-formatting loop shared by both paths: each row joined with a
tab and terminated by a newline (CellMindAI-Client.js lines 669-671,
CellMindAILib.js lines 206-209). -/
def dataTableRows (data : TabularData) : String :=
  data.foldl (fun acc row => acc ++ rowJoin row ++ "\n") ""

/-- dataTable in executeChainDirectly (CellMindAI-Client.js lines 667-672):
built only when data is non-empty, otherwise the empty string. -/
def clientDataTable (data : TabularData) : String :=
  if data.length > 0 then dataTableRows data else ""

/-- fullPrompt before the data section in executeChainDirectly
(CellMindAI-Client.js lines 675-679): the previous result is appended only
when previousResult is truthy and the step asks for it. -/
def clientBase (step : ChainStep) (previousResult : Option String) : String :=
  match previousResult with
  | some r =>
    if jsTruthy r && step.includeLastResult then
      step.prompt ++ "\n\nResult from previous step:\n" ++ r
    else step.prompt
  | none => step.prompt

/-- fullPrompt in executeChainDirectly (CellMindAI-Client.js lines 666-683):
the data section is appended only when dataTable is truthy. -/
def clientFullPrompt (step : ChainStep) (previousResult : Option String) : String :=
  if jsTruthy (clientDataTable step.data) then
    clientBase step previousResult ++ "\n\nHere is the data from the table:\n\n"
      ++ clientDataTable step.data
  else clientBase step previousResult

/-- CellMindAI._formatDataAsTable (CellMindAILib.js lines 197-212): empty
data renders the placeholder text. -/
def libDataTable (data : TabularData) : String :=
  if data.length = 0 then "No data available" else dataTableRows data

/-- enhancedPrompt in CellMindAI.executePromptChain (CellMindAILib.js lines
127-131); note the different wording of the delimiter compared with the
client path. -/
def libBase (step : ChainStep) (previousResponse : Option String) : String :=
  match previousResponse with
  | some r =>
    if jsTruthy r && step.includeLastResult then
      step.prompt ++ "\n\nResult of the previous step:\n" ++ r
    else step.prompt
  | none => step.prompt

/-- fullPrompt in CellMindAI.sendPrompt (CellMindAILib.js lines 88-92): the
data section is appended unconditionally. -/
def libFullPrompt (step : ChainStep) (previousResponse : Option String) : String :=
  libBase step previousResponse ++ "\n\nHere is the data from the table:\n\n"
    ++ libDataTable step.data

/-- Observable record of one chain run: the responses recorded before any
throw, every prompt handed to the completion call in order, and the thrown
error message if the run failed. -/
structure RunTrace where
  results : List String
  calls : List String
  failure : Option String
deriving DecidableEq

/-- The sequential chain loop shared by executeChainDirectly
(CellMindAI-Client.js lines 661-692) and CellMindAI.executePromptChain
(CellMindAILib.js lines 121-141), abstracted over the prompt composition pf
and the error wrapping w applied by the completion call.  oracle i p is the
outcome of the i-th completion call on prompt p.  A failure stops the loop
at once; the results accumulated before the throw are kept in the trace
even though the JavaScript functions lose them when the exception
propagates. -/
def runChain (pf : ChainStep → Option String → String) (w : String → String)
    (oracle : Nat → String → Except String String) :
    List ChainStep → Nat → Option String → RunTrace
  | [], _, _ => ⟨[], [], none⟩
  | step :: rest, i, prev =>
    match oracle i (pf step prev) with
    | .error e => ⟨[], [pf step prev], some (w e)⟩
    | .ok r =>
      let t := runChain pf w oracle rest (i + 1) (some r)
      ⟨r :: t.results, pf step prev :: t.calls, t.failure⟩

/-- Trace of executeChainDirectly; callClaudeAPI rethrows nothing, so errors
are unwrapped. -/
def clientTrace (oracle : Nat → String → Except String String)
    (steps : List ChainStep) : RunTrace :=
  runChain clientFullPrompt id oracle steps 0 none

/-- executeChainDirectly (CellMindAI-Client.js lines 661-692) as seen by its
caller: the results array on success, only the thrown error on failure. -/
def executeChainDirectly (oracle : Nat → String → Except String String)
    (steps : List ChainStep) : Except String (List String) :=
  match (clientTrace oracle steps).failure with
  | some e => .error e
  | none => .ok (clientTrace oracle steps).results

/-- CellMindAI._sendRequest (CellMindAILib.js lines 242-244) wraps every
failure of the underlying request. -/
def libWrap (e : String) : String :=
  "Error during API request: " ++ e

/-- Trace of CellMindAI.executePromptChain, with the library error
wrapping.  Modelled under a configured API key. -/
def libTrace (oracle : Nat → String → Except String String)
    (steps : List ChainStep) : RunTrace :=
  runChain libFullPrompt libWrap oracle steps 0 none

namespace CellMindAI

/-- CellMindAI.executePromptChain (CellMindAILib.js lines 116-142) as seen
by its caller: the non-empty-array guard at lines 117-119, then the
sequential loop; a throw loses the accumulated results. -/
def executePromptChain (oracle : Nat → String → Except String String)
    (chain : List ChainStep) : Except String (List String) :=
  if chain.isEmpty then .error "Prompt chain must be a non-empty array"
  else
    match (libTrace oracle chain).failure with
    | some e => .error e
    | none => .ok (libTrace oracle chain).results

end CellMindAI

/-- data[i][col] with string cells; a column index outside the row (the
JavaScript undefined) is modelled as the empty string, which the blank and
truthiness checks treat the same way. -/
def getCell (row : List Cell) (j : Int) : Cell :=
  if j < 0 then "" else (row.get? j.toNat).getD ""

/-- The skip condition of the client chain builder (CellMindAI-Client.js
line 491): the row is skipped when the prompt cell is falsy or
whitespace-only. -/
def isBlankPrompt (s : Cell) : Bool :=
  !(jsTruthy s) || jsTrim s == ""

/-- Range processing of one builder row (CellMindAI-Client.js lines
496-545): nothing is resolved when the range column is absent or the cell
falsy or blank after trimming; a resolution failure asks the user, cont
models the answer of the continue dialog (true keeps an empty data set,
false aborts the whole build). -/
def rowRangeData (env : SheetEnv) (cont : Bool) (row : List Cell)
    (rangeCol : Int) : Except String TabularData :=
  if rangeCol != (-1 : Int) && jsTruthy (getCell row rangeCol) then
    if jsTruthy (jsTrim (getCell row rangeCol)) then
      match resolveReference env (jsTrim (getCell row rangeCol)) with
      | .ok d => .ok d
      | .error e => if cont then .ok [] else .error e
    else .ok []
  else .ok []

/-- Data the builder stores for a row when every failure is answered with
continue; on any successful build this is the stored value whatever the
answer would have been. -/
def rowRangeDataValue (env : SheetEnv) (row : List Cell) (rangeCol : Int) :
    TabularData :=
  match rowRangeData env true row rangeCol with
  | .ok d => d
  | .error _ => []

/-- includeLastResult of one client builder row (CellMindAI-Client.js lines
548-555). -/
def parseInclude (row : List Cell) (includeCol : Int) : Bool :=
  if includeCol != (-1 : Int) then
    normalizeCell (getCell row includeCol) == "yes"
      || normalizeCell (getCell row includeCol) == "true"
      || normalizeCell (getCell row includeCol) == "1"
  else false

/-- The builder loop of executePromptChainFromCurrentSheet
(CellMindAI-Client.js lines 487-564) over the data rows (the header row
excluded): blank-prompt rows are skipped, every other row resolves its
range cell and pushes one step; an abort in the range dialog stops the
whole build. -/
def buildRows (env : SheetEnv) (cont : Bool) (pc rc ic : Int) :
    List (List Cell) → Except String (List ChainStep)
  | [] => .ok []
  | row :: rest =>
    if isBlankPrompt (getCell row pc) then buildRows env cont pc rc ic rest
    else
      match rowRangeData env cont row rc with
      | .error e => .error e
      | .ok d =>
        match buildRows env cont pc rc ic rest with
        | .error e => .error e
        | .ok steps => .ok (⟨getCell row pc, d, parseInclude row ic⟩ :: steps)

/-- The client chain builder including the hasValidPrompts guard
(CellMindAI-Client.js lines 566-573): an all-blank sheet aborts with the
no-valid-prompts alert. -/
def buildChainClient (env : SheetEnv) (cont : Bool) (pc rc ic : Int)
    (dataRows : List (List Cell)) : Except String (List ChainStep) :=
  match buildRows env cont pc rc ic dataRows with
  | .error e => .error e
  | .ok [] => .error "No valid prompts"
  | .ok steps => .ok steps

/-- The builder loop of showChainDialog (CellMindAILib.js lines 478-502)
over the data rows: fixed columns 0, 1 and 2, and includeLastResult is the
strict comparison with the boolean true or the exact string true (with
string cells only the latter can hold); an invalid range aborts. -/
def buildChainLibDialogRows (getRange : String → Except String TabularData) :
    List (List Cell) → Except String (List ChainStep)
  | [] => .ok []
  | row :: rest =>
    if isBlankPrompt (getCell row 0) then buildChainLibDialogRows getRange rest
    else
      match
        (if jsTruthy (getCell row 1) && jsTrim (getCell row 1) != "" then
          getRange (getCell row 1)
        else .ok []) with
      | .error e => .error e
      | .ok d =>
        match buildChainLibDialogRows getRange rest with
        | .error e => .error e
        | .ok steps =>
          .ok (⟨getCell row 0, d, getCell row 2 == "true"⟩ :: steps)

/-- showChainDialog chain building with its emptiness guard
(CellMindAILib.js lines 504-507). -/
def buildChainLibDialog (getRange : String → Except String TabularData)
    (dataRows : List (List Cell)) : Except String (List ChainStep) :=
  match buildChainLibDialogRows getRange dataRows with
  | .error e => .error e
  | .ok [] => .error "No valid prompts found in the sheet."
  | .ok steps => .ok steps

/-- Fixture: environment whose named lookup throws and whose current-sheet
address lookup fails with an address error. -/
def envBothFail : SheetEnv where
  getSheet _ := none
  getRangeByName _ := .error "named lookup failed"
  currentRange _ := .error "Range not found"

/-- Fixture: environment with one named range. -/
def envNamed : SheetEnv where
  getSheet _ := none
  getRangeByName r := if r == "MyRange" then .ok (some [["v"]]) else .ok none
  currentRange _ := .error "Range not found"

/-- Fixture: completion oracle that echoes the prompt. -/
def oracleEcho : Nat → String → Except String String :=
  fun _ p => .ok p

/-- Fixture: completion oracle that always returns the empty response. -/
def oracleEmpty : Nat → String → Except String String :=
  fun _ _ => .ok ""

/-- Fixture: oracle succeeding on the first call and failing afterwards. -/
def oracleFailSecond : Nat → String → Except String String :=
  fun i _ => if i = 0 then .ok "first result A" else .error "boom"

/-- Fixture: like oracleFailSecond with a different first response. -/
def oracleFailSecondB : Nat → String → Except String String :=
  fun i _ => if i = 0 then .ok "first result B" else .error "boom"

/-- Fixture: oracle with distinct responses per call index. -/
def oracleIndexed : Nat → String → Except String String :=
  fun i _ => .ok (if i = 0 then "step zero text" else "later")

/-- Fixture: a minimal step with no data. -/
def stepPlain : ChainStep := ⟨"Go", [], false⟩

/-- Fixture: a step with data and no previous-result inclusion. -/
def stepWithData : ChainStep := ⟨"Go", [["a", "b"], ["c"]], false⟩

/-- Fixture: a step asking for the previous result. -/
def stepWantsPrev : ChainStep := ⟨"Second", [], true⟩

/-- Fixture: first step of the witness chains. -/
def stepFirst : ChainStep := ⟨"First", [], false⟩

/-- Fixture: builder rows with a whitespace-only prompt row in the middle. -/
def rowsWitness : List (List Cell) :=
  [["Summarize", "", "no"], ["   ", "ignored", "yes"], ["Elaborate", "", "YES"]]

theorem strDataAppend : ∀ (a b : String), (a ++ b).data = a.data ++ b.data
  | ⟨_⟩, ⟨_⟩ => rfl

theorem strExt : ∀ {a b : String}, a.data = b.data → a = b
  | ⟨_⟩, ⟨_⟩, h => congrArg String.mk h

theorem strAppend_assoc (a b c : String) : (a ++ b) ++ c = a ++ (b ++ c) :=
  strExt (by simp [strDataAppend])

theorem strAppend_empty (a : String) : a ++ "" = a :=
  strExt (by simp [strDataAppend])

theorem strEmpty_append (a : String) : "" ++ a = a :=
  strExt (by simp [strDataAppend])

theorem isPrefixOf_append_self : ∀ (l t : List Char), l.isPrefixOf (l ++ t) = true
  | [], _ => by simp [List.isPrefixOf]
  | c :: l, t => by simp [List.isPrefixOf, isPrefixOf_append_self l t]

theorem containsSubAux_of_isPrefixOf {pat s : List Char}
    (h : pat.isPrefixOf s = true) : containsSubAux pat s = true := by
  cases s with
  | nil =>
    cases pat with
    | nil => rfl
    | cons c t => simp [List.isPrefixOf] at h
  | cons c t => simp [containsSubAux, h]

theorem containsSubAux_append_left (a : List Char) {pat s : List Char}
    (h : containsSubAux pat s = true) : containsSubAux pat (a ++ s) = true := by
  induction a with
  | nil => simpa using h
  | cons c t ih => simp [containsSubAux, ih]

theorem strIncludes_sandwich (a pat b : String) :
    strIncludes (a ++ pat ++ b) pat = true := by
  have h2 : containsSubAux pat.data (pat.data ++ b.data) = true :=
    containsSubAux_of_isPrefixOf (isPrefixOf_append_self _ _)
  have h3 : containsSubAux pat.data (a.data ++ (pat.data ++ b.data)) = true :=
    containsSubAux_append_left _ h2
  unfold strIncludes
  rw [strDataAppend, strDataAppend, List.append_assoc]
  exact h3

theorem findColumnIndexAux_spec (keywords : List String) :
    ∀ (headers : List String) (i : Nat),
      findColumnIndexAux keywords i (headers.map normalizeCell) =
        match specFirstMatchIdx
            (fun h => keywords.any (fun k => strIncludes (normalizeCell h) k)) headers with
        | some j => ((i + j : Nat) : Int)
        | none => -1 := by
  intro headers
  induction headers with
  | nil => intro i; rfl
  | cons h t ih =>
    intro i
    by_cases hp : keywords.any (fun k => strIncludes (normalizeCell h) k) = true
    · simp [findColumnIndexAux, specFirstMatchIdx, hp]
    · simp only [List.map_cons, findColumnIndexAux, specFirstMatchIdx, hp,
        Bool.false_eq_true, if_false]
      rw [ih (i + 1)]
      cases hs : specFirstMatchIdx
          (fun h => keywords.any (fun k => strIncludes (normalizeCell h) k)) t with
      | none => simp
      | some j => simp; ring

/-- C2: for every header row and keyword set, column discovery returns the
index of the first header whose lower-cased and trimmed text contains some
keyword as a substring, and -1 when no header matches; the result depends
only on the normalized header texts, so case and surrounding whitespace in
a header never affect it. -/
theorem claimC2_columnDiscovery (headers keywords : List String) :
    (columnDiscovery headers keywords =
      match specFirstMatchIdx
          (fun h => keywords.any (fun k => strIncludes (normalizeCell h) k)) headers with
      | some j => (j : Int)
      | none => -1)
    ∧ ∀ headers2 : List String,
        headers2.map normalizeCell = headers.map normalizeCell →
        columnDiscovery headers2 keywords = columnDiscovery headers keywords := by
  constructor
  · have h := findColumnIndexAux_spec keywords headers 0
    unfold columnDiscovery findColumnIndex
    rw [h]
    cases specFirstMatchIdx
        (fun h => keywords.any (fun k => strIncludes (normalizeCell h) k)) headers with
    | none => rfl
    | some j => simp
  · intro headers2 hnorm
    unfold columnDiscovery findColumnIndex
    rw [hnorm]

/-- Witness for C2 at a concrete input: upper-casing and padding a header
does not change the discovered column. -/
theorem claimC2_witness :
    columnDiscovery ["Notes", "  PROMPT  "] ["prompt"] =
      columnDiscovery ["notes", "prompt"] ["prompt"] :=
  (claimC2_columnDiscovery ["notes", "prompt"] ["prompt"]).2
    ["Notes", "  PROMPT  "] (by decide)

/-- C3: for a reference without the scope separator, resolution prefers a
defined named lookup; a null or throwing named lookup falls back to the
address lookup in the current scope, so when both fail the surfaced error
is the address-resolution error. -/
theorem claimC3_namedThenAddress (env : SheetEnv) (ref : String)
    (h : strIncludes ref "!" = false) :
    (∀ d, env.getRangeByName ref = .ok (some d) →
        resolveReference env ref = .ok d)
    ∧ (env.getRangeByName ref = .ok none →
        resolveReference env ref = env.currentRange ref)
    ∧ ∀ eN eA, env.getRangeByName ref = .error eN →
        env.currentRange ref = .error eA →
        resolveReference env ref = .error eA := by
  refine ⟨fun d hd => ?_, fun hn => ?_, fun eN eA hN hA => ?_⟩
  · simp [resolveReference, h, hd]
  · simp [resolveReference, h, hn]
  · simp [resolveReference, h, hN, hA]

/-- Witness for C3 at a concrete input: named lookup throws, the
current-scope address lookup fails, and the surfaced error is the address
error. -/
theorem claimC3_witness :
    resolveReference envBothFail "BadRange" = .error "Range not found" :=
  (claimC3_namedThenAddress envBothFail "BadRange" (by decide)).2.2
    "named lookup failed" "Range not found" rfl rfl

/-- C7: a scoped reference whose scope name does not resolve fails with the
sheet-not-found error carrying the scope name (the name occurs verbatim in
the message), not a generic failure. -/
theorem claimC7_scopeNotFound (env : SheetEnv) (ref name : String)
    (h1 : strIncludes ref "!" = true)
    (h2 : ((jsSplitBang ref).get? 0).getD "" = name)
    (h3 : env.getSheet name = none) :
    resolveReference env ref = .error ("Sheet \"" ++ name ++ "\" not found")
    ∧ strIncludes ("Sheet \"" ++ name ++ "\" not found") name = true := by
  constructor
  · simp only [resolveReference, h1, if_true]
    rw [show ((jsSplitBang ref).get? 0).getD "" = name from h2, h3]
  · exact strIncludes_sandwich "Sheet \"" name "\" not found"

/-- Witness for C7 at the concrete reference of the claim: the scope lookup
lacks Sheet2 and the error names Sheet2. -/
theorem claimC7_witness :
    resolveReference envBothFail "Sheet2!A1:A3" =
        .error ("Sheet \"" ++ "Sheet2" ++ "\" not found")
    ∧ strIncludes ("Sheet \"" ++ "Sheet2" ++ "\" not found") "Sheet2" = true :=
  claimC7_scopeNotFound envBothFail "Sheet2!A1:A3" "Sheet2"
    (by decide) (by decide) rfl

theorem runChain_append_of_failure (pf : ChainStep → Option String → String)
    (w : String → String) (oracle : Nat → String → Except String String) :
    ∀ (steps : List ChainStep) (i : Nat) (prev : Option String) (e : String),
      (runChain pf w oracle steps i prev).failure = some e →
      ∀ extra, runChain pf w oracle (steps ++ extra) i prev =
        runChain pf w oracle steps i prev := by
  intro steps
  induction steps with
  | nil => intro i prev e h; simp [runChain] at h
  | cons step rest ih =>
    intro i prev e h extra
    cases ho : oracle i (pf step prev) with
    | error e2 => simp [runChain, ho]
    | ok r =>
      simp only [List.cons_append, runChain, ho, List.append_eq] at h ⊢
      rw [ih (i + 1) (some r) e h extra]

theorem runChain_failure_lengths (pf : ChainStep → Option String → String)
    (w : String → String) (oracle : Nat → String → Except String String) :
    ∀ (steps : List ChainStep) (i : Nat) (prev : Option String) (e : String),
      (runChain pf w oracle steps i prev).failure = some e →
      (runChain pf w oracle steps i prev).calls.length =
          (runChain pf w oracle steps i prev).results.length + 1
      ∧ (runChain pf w oracle steps i prev).results.length < steps.length := by
  intro steps
  induction steps with
  | nil => intro i prev e h; simp [runChain] at h
  | cons step rest ih =>
    intro i prev e h
    cases ho : oracle i (pf step prev) with
    | error e2 => simp [runChain, ho]
    | ok r =>
      simp only [runChain, ho] at h ⊢
      have := ih (i + 1) (some r) e h
      simp only [List.length_cons]
      omega

theorem runChain_success_lengths (pf : ChainStep → Option String → String)
    (w : String → String) (oracle : Nat → String → Except String String) :
    ∀ (steps : List ChainStep) (i : Nat) (prev : Option String),
      (runChain pf w oracle steps i prev).failure = none →
      (runChain pf w oracle steps i prev).calls.length = steps.length
      ∧ (runChain pf w oracle steps i prev).results.length = steps.length := by
  intro steps
  induction steps with
  | nil => intro i prev _; simp [runChain]
  | cons step rest ih =>
    intro i prev h
    cases ho : oracle i (pf step prev) with
    | error e2 => simp [runChain, ho] at h
    | ok r =>
      simp only [runChain, ho] at h ⊢
      have := ih (i + 1) (some r) h
      simp only [List.length_cons]
      omega

theorem runChain_calls_head (pf : ChainStep → Option String → String)
    (w : String → String) (oracle : Nat → String → Except String String)
    (step : ChainStep) (rest : List ChainStep) (i : Nat) (prev : Option String) :
    (runChain pf w oracle (step :: rest) i prev).calls.get? 0 =
      some (pf step prev) := by
  cases ho : oracle i (pf step prev) with
  | error e => simp [runChain, ho]
  | ok r => simp [runChain, ho]

theorem runChain_call_after (pf : ChainStep → Option String → String)
    (w : String → String) (oracle : Nat → String → Except String String) :
    ∀ (steps : List ChainStep) (i : Nat) (prev : Option String) (j : Nat)
      (p r : String) (s2 : ChainStep),
      (runChain pf w oracle steps i prev).calls.get? (j + 1) = some p →
      (runChain pf w oracle steps i prev).results.get? j = some r →
      steps.get? (j + 1) = some s2 →
      p = pf s2 (some r) := by
  intro steps
  induction steps with
  | nil => intro i prev j p r s2 hc _ _; simp [runChain] at hc
  | cons step rest ih =>
    intro i prev j p r s2 hc hr hs
    cases ho : oracle i (pf step prev) with
    | error e =>
      simp only [runChain, ho] at hc
      simp at hc
    | ok r0 =>
      simp only [runChain, ho] at hc hr
      simp only [List.get?_cons_succ] at hc hs
      cases j with
      | zero =>
        simp only [List.get?_cons_zero, Option.some.injEq] at hr
        cases rest with
        | nil => simp at hs
        | cons s2' rest' =>
          simp only [List.get?_cons_zero, Option.some.injEq] at hs
          have hh := runChain_calls_head pf w oracle s2' rest' (i + 1) (some r0)
          rw [hc] at hh
          rw [← hs, ← hr]
          exact (Option.some.injEq _ _).mp hh
      | succ j' =>
        simp only [List.get?_cons_succ] at hr
        exact ih (i + 1) (some r0) j' p r s2 hc hr hs

theorem runChain_congr (pf1 pf2 : ChainStep → Option String → String)
    (w1 w2 : String → String) (oracle : Nat → String → Except String String) :
    ∀ (steps : List ChainStep) (i : Nat) (prev : Option String),
      (∀ s ∈ steps, ∀ pr, pf1 s pr = pf2 s pr) →
      (runChain pf1 w1 oracle steps i prev).calls =
          (runChain pf2 w2 oracle steps i prev).calls
      ∧ (runChain pf1 w1 oracle steps i prev).results =
          (runChain pf2 w2 oracle steps i prev).results := by
  intro steps
  induction steps with
  | nil => intro i prev _; simp [runChain]
  | cons step rest ih =>
    intro i prev hagree
    have hstep : pf1 step prev = pf2 step prev :=
      hagree step (List.mem_cons_self _ _) prev
    cases ho : oracle i (pf2 step prev) with
    | error e => simp [runChain, hstep, ho]
    | ok r =>
      have hrest := ih (i + 1) (some r)
        (fun s hs pr => hagree s (List.mem_cons_of_mem _ hs) pr)
      simp only [runChain, hstep, ho]
      exact ⟨by rw [hrest.1], by rw [hrest.2]⟩

theorem dataTableRows_foldl_acc :
    ∀ (d : TabularData) (acc : String),
      d.foldl (fun a row => a ++ rowJoin row ++ "\n") acc =
        acc ++ dataTableRows d := by
  intro d
  induction d with
  | nil => intro acc; simp [dataTableRows, strAppend_empty]
  | cons r t ih =>
    intro acc
    simp only [dataTableRows, List.foldl_cons]
    rw [ih (acc ++ rowJoin r ++ "\n"), ih ("" ++ rowJoin r ++ "\n"),
      strEmpty_append, strAppend_assoc, strAppend_assoc,
      strAppend_assoc (rowJoin r) "\n" (dataTableRows t)]

theorem dataTableRows_cons (r : List Cell) (t : TabularData) :
    dataTableRows (r :: t) = (rowJoin r ++ "\n") ++ dataTableRows t := by
  show List.foldl _ _ (r :: t) = _
  rw [List.foldl_cons, dataTableRows_foldl_acc, strEmpty_append]

theorem dataTableRows_ne_empty (r : List Cell) (t : TabularData) :
    dataTableRows (r :: t) ≠ "" := by
  rw [dataTableRows_cons]
  intro h
  have hd := congrArg String.data h
  rw [strDataAppend, strDataAppend] at hd
  simp at hd

theorem clientDataTable_of_ne_nil {d : TabularData} (h : d ≠ []) :
    clientDataTable d = dataTableRows d ∧ jsTruthy (clientDataTable d) = true := by
  cases d with
  | nil => exact absurd rfl h
  | cons r t =>
    constructor
    · simp [clientDataTable]
    · simp only [clientDataTable, List.length_cons, jsTruthy]
      rw [if_pos (Nat.succ_pos _)]
      simp [dataTableRows_ne_empty r t]

theorem executeChainDirectly_of_failure
    (oracle : Nat → String → Except String String) (steps : List ChainStep)
    (e : String) (h : (clientTrace oracle steps).failure = some e) :
    executeChainDirectly oracle steps = .error e := by
  unfold executeChainDirectly
  rw [h]

theorem libExecutePromptChain_of_failure
    (oracle : Nat → String → Except String String) (steps : List ChainStep)
    (e : String) (h : (libTrace oracle steps).failure = some e) :
    CellMindAI.executePromptChain oracle steps = .error e := by
  cases steps with
  | nil => simp [libTrace, runChain] at h
  | cons s t =>
    unfold CellMindAI.executePromptChain
    rw [if_neg (by simp)]
    rw [h]

/-- C1 (amended): when the completion call for step i fails, execution
aborts at step i: exactly i + 1 calls were issued and i responses recorded,
appending further steps to the chain changes nothing, and the caller
receives only the thrown failure; the responses of steps 0..i-1 are
discarded by the throw, not returned to the caller.  Stated for both the
fallback path (executeChainDirectly) and the library path
(CellMindAI.executePromptChain). -/
theorem claimC1_abortOnFailure (oracle : Nat → String → Except String String)
    (steps : List ChainStep) :
    (∀ e, (clientTrace oracle steps).failure = some e →
      executeChainDirectly oracle steps = .error e
      ∧ (clientTrace oracle steps).calls.length =
          (clientTrace oracle steps).results.length + 1
      ∧ (clientTrace oracle steps).results.length < steps.length
      ∧ ∀ extra, clientTrace oracle (steps ++ extra) = clientTrace oracle steps)
    ∧ ∀ e, (libTrace oracle steps).failure = some e →
      CellMindAI.executePromptChain oracle steps = .error e
      ∧ (libTrace oracle steps).calls.length =
          (libTrace oracle steps).results.length + 1
      ∧ ∀ extra, libTrace oracle (steps ++ extra) = libTrace oracle steps := by
  constructor
  · intro e h
    have hl := runChain_failure_lengths clientFullPrompt id oracle steps 0 none e h
    exact ⟨executeChainDirectly_of_failure oracle steps e h, hl.1, hl.2,
      fun extra =>
        runChain_append_of_failure clientFullPrompt id oracle steps 0 none e h extra⟩
  · intro e h
    have hl := runChain_failure_lengths libFullPrompt libWrap oracle steps 0 none e h
    exact ⟨libExecutePromptChain_of_failure oracle steps e h, hl.1,
      fun extra =>
        runChain_append_of_failure libFullPrompt libWrap oracle steps 0 none e h extra⟩

/-- Witness for C1 (amended) at a concrete chain of three steps failing at
step 1: the caller sees only the error, one more call than responses was
made, and a longer chain runs identically. -/
theorem claimC1_witness :
    executeChainDirectly oracleFailSecond [stepPlain, stepPlain, stepPlain] =
        .error "boom"
    ∧ (clientTrace oracleFailSecond [stepPlain, stepPlain, stepPlain]).calls.length =
        (clientTrace oracleFailSecond [stepPlain, stepPlain, stepPlain]).results.length + 1
    ∧ clientTrace oracleFailSecond ([stepPlain, stepPlain, stepPlain] ++ [stepWithData]) =
        clientTrace oracleFailSecond [stepPlain, stepPlain, stepPlain] := by
  have h := (claimC1_abortOnFailure oracleFailSecond
    [stepPlain, stepPlain, stepPlain]).1 "boom" (by decide)
  exact ⟨h.1, h.2.1, h.2.2.2 [stepWithData]⟩

/-- C1 counterexample: the results of the steps before the failure are not
returned to the caller.  Both oracles complete step 0, with different
response texts, and fail at step 1; the caller-visible outcome of
executeChainDirectly is the identical bare error in both runs, although the
traces show the differing step-0 responses were recorded before the throw.
If the results for steps 0..i-1 were returned alongside the failure, the
two outcomes would differ. -/
theorem claimC1_counterexample :
    executeChainDirectly oracleFailSecond [stepPlain, stepPlain] = .error "boom"
    ∧ executeChainDirectly oracleFailSecondB [stepPlain, stepPlain] = .error "boom"
    ∧ (clientTrace oracleFailSecond [stepPlain, stepPlain]).results = ["first result A"]
    ∧ (clientTrace oracleFailSecondB [stepPlain, stepPlain]).results = ["first result B"] := by
  refine ⟨rfl, rfl, by decide, by decide⟩

/-- C10: calling the library executePromptChain on an empty chain throws
the non-empty-array error before any completion request is issued and
returns no results.  (Inputs that are not arrays at all are outside this
typed embedding; the empty chain is the representable case.) -/
theorem claimC10_emptyChainThrows (oracle : Nat → String → Except String String) :
    CellMindAI.executePromptChain oracle [] =
        .error "Prompt chain must be a non-empty array"
    ∧ (libTrace oracle []).calls = [] := by
  exact ⟨rfl, rfl⟩

theorem clientBase_of_include {step : ChainStep} {r : String}
    (hinc : step.includeLastResult = true) (hr : r ≠ "") :
    clientBase step (some r) =
      step.prompt ++ "\n\nResult from previous step:\n" ++ r := by
  simp [clientBase, jsTruthy, hinc, hr]

theorem clientFullPrompt_contains_prev {step : ChainStep} {r : String}
    (hinc : step.includeLastResult = true) (hr : r ≠ "") :
    strIncludes (clientFullPrompt step (some r)) r = true := by
  unfold clientFullPrompt
  rw [clientBase_of_include hinc hr]
  by_cases hd : jsTruthy (clientDataTable step.data) = true
  · rw [if_pos hd,
      strAppend_assoc (step.prompt ++ "\n\nResult from previous step:\n" ++ r) _ _]
    exact strIncludes_sandwich _ r _
  · rw [if_neg hd]
    have h := strIncludes_sandwich (step.prompt ++ "\n\nResult from previous step:\n") r ""
    rwa [strAppend_empty] at h

theorem libBase_of_include {step : ChainStep} {r : String}
    (hinc : step.includeLastResult = true) (hr : r ≠ "") :
    libBase step (some r) =
      step.prompt ++ "\n\nResult of the previous step:\n" ++ r := by
  simp [libBase, jsTruthy, hinc, hr]

theorem libFullPrompt_contains_prev {step : ChainStep} {r : String}
    (hinc : step.includeLastResult = true) (hr : r ≠ "") :
    strIncludes (libFullPrompt step (some r)) r = true := by
  unfold libFullPrompt
  rw [libBase_of_include hinc hr,
    strAppend_assoc (step.prompt ++ "\n\nResult of the previous step:\n" ++ r) _ _]
  exact strIncludes_sandwich _ r _

/-- C4 (amended): in a chain run on either path, whenever the completion
call for step j + 1 was issued with prompt p, step j completed with
response text r, and step j + 1 asks for the previous result, then —
provided r is non-empty — p is exactly the composed prompt whose delimited
previous-step-result section carries r verbatim, and p contains r as a
substring.  The first conjunct settles the fallback path
(executeChainDirectly), the second the library path
(CellMindAI.executePromptChain), each with its own delimiter wording.
When r is the empty string the JavaScript truthiness guard skips the
section on both paths (see the counterexample). -/
theorem claimC4_prevResultVerbatim (oracle : Nat → String → Except String String)
    (steps : List ChainStep) (j : Nat) (r : String) (s2 : ChainStep)
    (hs : steps.get? (j + 1) = some s2)
    (hinc : s2.includeLastResult = true)
    (hr : r ≠ "") :
    (∀ p, (clientTrace oracle steps).calls.get? (j + 1) = some p →
      (clientTrace oracle steps).results.get? j = some r →
        p = clientFullPrompt s2 (some r)
        ∧ clientBase s2 (some r) =
            s2.prompt ++ "\n\nResult from previous step:\n" ++ r
        ∧ strIncludes p r = true)
    ∧ ∀ p, (libTrace oracle steps).calls.get? (j + 1) = some p →
        (libTrace oracle steps).results.get? j = some r →
          p = libFullPrompt s2 (some r)
          ∧ libBase s2 (some r) =
              s2.prompt ++ "\n\nResult of the previous step:\n" ++ r
          ∧ strIncludes p r = true := by
  constructor
  · intro p hc hres
    have hp : p = clientFullPrompt s2 (some r) :=
      runChain_call_after clientFullPrompt id oracle steps 0 none j p r s2 hc hres hs
    refine ⟨hp, clientBase_of_include hinc hr, ?_⟩
    rw [hp]
    exact clientFullPrompt_contains_prev hinc hr
  · intro p hc hres
    have hp : p = libFullPrompt s2 (some r) :=
      runChain_call_after libFullPrompt libWrap oracle steps 0 none j p r s2 hc hres hs
    refine ⟨hp, libBase_of_include hinc hr, ?_⟩
    rw [hp]
    exact libFullPrompt_contains_prev hinc hr

/-- Witness for C4 (amended) at a concrete two-step chain: on both paths
the prompt sent for step 1 contains the step-0 response verbatim. -/
theorem claimC4_witness :
    strIncludes
      (clientFullPrompt stepWantsPrev (some "step zero text")) "step zero text" = true
    ∧ strIncludes
        (libFullPrompt stepWantsPrev (some "step zero text")) "step zero text" = true := by
  have h1 := (claimC4_prevResultVerbatim oracleIndexed [stepFirst, stepWantsPrev]
    0 "step zero text" stepWantsPrev (by decide) (by decide) (by decide)).1
    (clientFullPrompt stepWantsPrev (some "step zero text")) (by decide) (by decide)
  have h2 := (claimC4_prevResultVerbatim oracleIndexed [stepFirst, stepWantsPrev]
    0 "step zero text" stepWantsPrev (by decide) (by decide) (by decide)).2
    (libFullPrompt stepWantsPrev (some "step zero text")) (by decide) (by decide)
  exact ⟨h1.2.2, h2.2.2⟩

/-- C4 counterexample: when step 0 completes with the empty response, step 1
with includePreviousResult = true is sent a prompt with no previous-step
section at all — the JavaScript truthiness check on previousResult skips
it — so the response is not appended as a delimited section as the claim
states for every completed previous step. -/
theorem claimC4_counterexample :
    (clientTrace oracleEmpty [stepFirst, stepWantsPrev]).results.get? 0 = some ""
    ∧ stepWantsPrev.includeLastResult = true
    ∧ (clientTrace oracleEmpty [stepFirst, stepWantsPrev]).calls.get? 1 = some "Second"
    ∧ strIncludes "Second" "Result from previous step" = false := by
  refine ⟨by decide, by decide, by decide, by decide⟩

/-- C5 (amended): in the fallback path the composed prompt appends the
delimited tabular rendering iff step.data is non-empty, and empty data
appends nothing; the library path (sendPrompt with _formatDataAsTable)
instead always appends the data section and renders the placeholder text
for empty data. -/
theorem claimC5_dataSection (step : ChainStep) (prev : Option String) :
    (step.data = [] → clientFullPrompt step prev = clientBase step prev)
    ∧ (step.data ≠ [] →
        clientFullPrompt step prev =
          clientBase step prev ++ "\n\nHere is the data from the table:\n\n"
            ++ dataTableRows step.data)
    ∧ (step.data = [] →
        libFullPrompt step prev =
          libBase step prev ++ "\n\nHere is the data from the table:\n\n"
            ++ "No data available") := by
  refine ⟨fun h => ?_, fun h => ?_, fun h => ?_⟩
  · simp [clientFullPrompt, clientDataTable, h, jsTruthy]
  · have hd := clientDataTable_of_ne_nil h
    rw [clientFullPrompt, if_pos hd.2, hd.1]
  · rw [libFullPrompt, libDataTable, if_pos (by simp [h])]

/-- Witness for C5 (amended) at concrete steps: empty data appends nothing
in the fallback path; non-empty data appends the rendered rows; empty data
makes the library path append the placeholder. -/
theorem claimC5_witness :
    clientFullPrompt stepPlain none = clientBase stepPlain none
    ∧ clientFullPrompt stepWithData none =
        clientBase stepWithData none ++ "\n\nHere is the data from the table:\n\n"
          ++ dataTableRows stepWithData.data
    ∧ libFullPrompt stepPlain none =
        libBase stepPlain none ++ "\n\nHere is the data from the table:\n\n"
          ++ "No data available" :=
  ⟨(claimC5_dataSection stepPlain none).1 rfl,
   (claimC5_dataSection stepWithData none).2.1 (by decide),
   (claimC5_dataSection stepPlain none).2.2 rfl⟩

/-- C5 counterexample: for a step with empty data the library-composed
prompt is not the bare prompt — it carries the placeholder text, which the
claim says must never appear. -/
theorem claimC5_counterexample :
    libFullPrompt ⟨"E", [], false⟩ none ≠ "E"
    ∧ strIncludes (libFullPrompt ⟨"E", [], false⟩ none) "No data available" = true := by
  refine ⟨by decide, by decide⟩

theorem prompts_agree {s : ChainStep} (h1 : s.data ≠ [])
    (h2 : s.includeLastResult = false) :
    ∀ prev, libFullPrompt s prev = clientFullPrompt s prev := by
  intro prev
  have hbase : libBase s prev = clientBase s prev := by
    cases prev with
    | none => rfl
    | some r => simp [libBase, clientBase, h2]
  have hd := clientDataTable_of_ne_nil h1
  rw [libFullPrompt, clientFullPrompt, if_pos hd.2, hbase, hd.1, libDataTable,
    if_neg (by simpa using h1)]

/-- C6 (amended): the library path and the fallback path agree — same
prompt texts sent, same response texts recorded — only for chains whose
every step has non-empty data and does not include the previous result.
In general they differ: the library always appends the data section,
rendering the placeholder for empty data, and words the previous-result
delimiter differently (see the counterexample). -/
theorem claimC6_pathsAgreeOnRestriction (oracle : Nat → String → Except String String)
    (steps : List ChainStep)
    (h : ∀ s ∈ steps, s.data ≠ [] ∧ s.includeLastResult = false) :
    (libTrace oracle steps).calls = (clientTrace oracle steps).calls
    ∧ (libTrace oracle steps).results = (clientTrace oracle steps).results :=
  runChain_congr libFullPrompt clientFullPrompt libWrap id oracle steps 0 none
    (fun s hs pr => prompts_agree (h s hs).1 (h s hs).2 pr)

/-- Witness for C6 (amended) at a concrete one-step chain with data: both
paths send the same prompt and record the same response. -/
theorem claimC6_witness :
    (libTrace oracleEcho [stepWithData]).calls =
        (clientTrace oracleEcho [stepWithData]).calls
    ∧ (libTrace oracleEcho [stepWithData]).results =
        (clientTrace oracleEcho [stepWithData]).results :=
  claimC6_pathsAgreeOnRestriction oracleEcho [stepWithData]
    (by intro s hs; rw [List.mem_singleton] at hs; subst hs; exact ⟨by decide, rfl⟩)

/-- C6 counterexample: on the same one-step chain with empty data and the
same completion responses (an oracle echoing the prompt), the two paths
compose different prompts and return different response texts, so they do
not do the same thing. -/
theorem claimC6_counterexample :
    clientFullPrompt ⟨"P", [], false⟩ none = "P"
    ∧ libFullPrompt ⟨"P", [], false⟩ none =
        "P\n\nHere is the data from the table:\n\nNo data available"
    ∧ executeChainDirectly oracleEcho [⟨"P", [], false⟩] = .ok ["P"]
    ∧ CellMindAI.executePromptChain oracleEcho [⟨"P", [], false⟩] =
        .ok ["P\n\nHere is the data from the table:\n\nNo data available"] := by
  refine ⟨by decide, by decide, rfl, rfl⟩

theorem rowRangeData_ok_any {env : SheetEnv} {cont : Bool} {row : List Cell}
    {rc : Int} {d : TabularData} (h : rowRangeData env cont row rc = .ok d) :
    rowRangeData env true row rc = .ok d := by
  unfold rowRangeData at h ⊢
  by_cases h1 : (rc != (-1 : Int) && jsTruthy (getCell row rc)) = true
  · rw [if_pos h1] at h ⊢
    by_cases h2 : jsTruthy (jsTrim (getCell row rc)) = true
    · rw [if_pos h2] at h ⊢
      cases hres : resolveReference env (jsTrim (getCell row rc)) with
      | ok d2 =>
        rw [hres] at h
        simp at h ⊢
        exact h
      | error e =>
        rw [hres] at h
        cases cont with
        | true => simpa using h
        | false => simp at h
    · rw [if_neg h2] at h ⊢; exact h
  · rw [if_neg h1] at h ⊢; exact h

theorem buildRows_filter (env : SheetEnv) (cont : Bool) (pc rc ic : Int) :
    ∀ rows : List (List Cell),
      buildRows env cont pc rc ic
          (rows.filter fun r => !(isBlankPrompt (getCell r pc))) =
        buildRows env cont pc rc ic rows := by
  intro rows
  induction rows with
  | nil => rfl
  | cons row rest ih =>
    by_cases hb : isBlankPrompt (getCell row pc) = true
    · rw [List.filter_cons, if_neg (by simp [hb])]
      rw [ih]
      conv_rhs => rw [buildRows, if_pos hb]
    · have hb' : isBlankPrompt (getCell row pc) = false := by
        simpa using hb
      rw [List.filter_cons, if_pos (by simp [hb'])]
      simp only [buildRows, hb', Bool.false_eq_true, if_false]
      rw [ih]

theorem buildRows_ok_shape (env : SheetEnv) (cont : Bool) (pc rc ic : Int) :
    ∀ (rows : List (List Cell)) (steps : List ChainStep),
      buildRows env cont pc rc ic rows = .ok steps →
      steps = (rows.filter fun r => !(isBlankPrompt (getCell r pc))).map
        fun r =>
          (⟨getCell r pc, rowRangeDataValue env r rc, parseInclude r ic⟩ : ChainStep) := by
  intro rows
  induction rows with
  | nil =>
    intro steps h
    simp only [buildRows] at h
    simp only [List.filter_nil, List.map_nil]
    exact ((Except.ok.injEq _ _).mp h).symm
  | cons row rest ih =>
    intro steps h
    by_cases hb : isBlankPrompt (getCell row pc) = true
    · rw [buildRows, if_pos hb] at h
      rw [List.filter_cons, if_neg (by simp [hb])]
      exact ih steps h
    · have hb' : isBlankPrompt (getCell row pc) = false := by
        simpa using hb
      rw [buildRows, if_neg (by simp [hb'])] at h
      rw [List.filter_cons, if_pos (by simp [hb'])]
      cases hrr : rowRangeData env cont row rc with
      | error e => rw [hrr] at h; simp at h
      | ok d =>
        rw [hrr] at h
        cases hrest : buildRows env cont pc rc ic rest with
        | error e => rw [hrest] at h; simp at h
        | ok steps2 =>
          rw [hrest] at h
          have hsteps : steps = ⟨getCell row pc, d, parseInclude row ic⟩ :: steps2 :=
            ((Except.ok.injEq _ _).mp h).symm
          have hd : d = rowRangeDataValue env row rc := by
            rw [rowRangeDataValue, rowRangeData_ok_any hrr]
          rw [hsteps, List.map_cons, ← hd, ih steps2 hrest]

/-- C8: rows whose prompt cell is empty or whitespace-only are skipped by
the client chain builder: deleting them from the input changes nothing (no
step, no error, no count), and any successful build returns exactly the
non-blank rows, in their original order, mapped to their steps. -/
theorem claimC8_blankRowsSkipped (env : SheetEnv) (cont : Bool)
    (pc rc ic : Int) (rows : List (List Cell)) :
    (buildRows env cont pc rc ic
        (rows.filter fun r => !(isBlankPrompt (getCell r pc))) =
      buildRows env cont pc rc ic rows)
    ∧ ∀ steps, buildRows env cont pc rc ic rows = .ok steps →
        steps = (rows.filter fun r => !(isBlankPrompt (getCell r pc))).map
          fun r =>
            (⟨getCell r pc, rowRangeDataValue env r rc, parseInclude r ic⟩ : ChainStep) :=
  ⟨buildRows_filter env cont pc rc ic rows,
   fun steps h => buildRows_ok_shape env cont pc rc ic rows steps h⟩

/-- Witness for C8 at the concrete fixture rows: the whitespace-only second
row produces no step and the two other rows produce their steps in order. -/
theorem claimC8_witness :
    ([⟨"Summarize", [], false⟩, ⟨"Elaborate", [], true⟩] : List ChainStep) =
      (rowsWitness.filter fun r => !(isBlankPrompt (getCell r 0))).map
        fun r =>
          (⟨getCell r 0, rowRangeDataValue envBothFail r 1, parseInclude r 2⟩ : ChainStep) :=
  (claimC8_blankRowsSkipped envBothFail true 0 1 2 rowsWitness).2
    [⟨"Summarize", [], false⟩, ⟨"Elaborate", [], true⟩] rfl

/-- C9 (amended): in the client chain builder, the built step has
includePreviousResult true iff an include column was found and the
include cell, lower-cased and trimmed, equals yes, true or 1; every other
value and the absent column yield false.  The builder of the library
showChainDialog instead compares the raw cell against the boolean true or
the exact string true (see the counterexample). -/
theorem claimC9_includeRule (row : List Cell) (ic : Int) :
    parseInclude row ic = true ↔
      ic ≠ -1 ∧ (normalizeCell (getCell row ic) = "yes"
        ∨ normalizeCell (getCell row ic) = "true"
        ∨ normalizeCell (getCell row ic) = "1") := by
  by_cases h : ic = (-1 : Int)
  · simp [parseInclude, h]
  · simp [parseInclude, h]
    tauto

/-- C9 counterexample: the library showChainDialog builder gives a step
with includePreviousResult = false for the include cell YES although its
normalized text is yes, contradicting the claimed rule on that builder. -/
theorem claimC9_counterexample :
    buildChainLibDialog (fun _ => .ok []) [["p", "", "YES"]] =
        .ok [⟨"p", [], false⟩]
    ∧ normalizeCell "YES" = "yes" :=
  ⟨rfl, by decide⟩
